import Mathlib

/-
Verification of the clan-bot record store and conversation state machine
(src/bot.py) against its natural-language specification.

The Python module is embedded shallowly:
  * the remote JSON document (a Python dict keyed by stringified user ids,
    insertion-ordered) is a `Store`, an association list with in-place
    update and append-at-end insertion, mirroring dict semantics;
  * remote I/O outcomes (GitHub GET/PUT results, raised exceptions) are
    explicit parameters of the embedded functions;
  * `context.user_data` (per-user session scratch) is a `UserData` record
    with one `Option` field per dict key used by the handlers.
All definitions follow the source line by line; deviations from Python
builtin semantics (ASCII-only lowercasing, the modelled fragment of
`int()` parsing) are noted at the definition site.
-/

namespace ClanBot

/-- Account dict as built by the bot: username, attack, defense
(src/bot.py lines 1104-1108). -/
structure Account where
  username : String
  attack : Int
  defense : Int
deriving Repr, DecidableEq

/-- Member record with keys `telegram_name` and `accounts`
(src/bot.py lines 567-570). -/
structure MemberRecord where
  telegram_name : String
  accounts : List Account
deriving Repr, DecidableEq

/-- The clan-data JSON document: a Python dict from stringified user id to
member record.  Python dicts preserve insertion order; updates keep the
key position, fresh keys append at the end, which an association list with
the operations below models exactly. -/
abbrev Store := List (String × MemberRecord)

/-- Dict read `data.get(k)`: first binding of the key, if any. -/
def dictGet (s : Store) (k : String) : Option MemberRecord :=
  match s with
  | [] => none
  | (k0, v0) :: rest => if k0 == k then some v0 else dictGet rest k

/-- Dict write `data[k] = v`: replace in place if the key exists, else
append at the end (Python dict insertion-order semantics). -/
def dictSet (s : Store) (k : String) (v : MemberRecord) : Store :=
  match s with
  | [] => [(k, v)]
  | (k0, v0) :: rest => if k0 == k then (k, v) :: rest else (k0, v0) :: dictSet rest k v

/-- Dict deletion `data.pop(k)`. -/
def dictRemove (s : Store) (k : String) : Store :=
  match s with
  | [] => []
  | (k0, v0) :: rest => if k0 == k then rest else (k0, v0) :: dictRemove rest k

/-- Lowercase one character, ASCII range only. -/
def lowerChar (c : Char) : Char :=
  if 'A' ≤ c && c ≤ 'Z' then Char.ofNat (c.toNat + 32) else c

/-- Python `s.lower()`, modelled on the ASCII range (the bot's usernames
are ASCII; Unicode case folding is outside the model). -/
def pyLower (s : String) : String := String.mk (s.data.map lowerChar)

/-- Python `s.strip()`: drop whitespace from both ends. -/
def pyStrip (s : String) : String :=
  String.mk ((s.data.dropWhile Char.isWhitespace).reverse.dropWhile Char.isWhitespace).reverse

/-- Case-insensitive comparison `a.lower() == b.lower()`. -/
def ciEq (a b : String) : Bool := pyLower a == pyLower b

/-- Source `get_user_accounts` (src/bot.py lines 304-306): the member's
account list, defaulting to empty when the member is absent. -/
def get_user_accounts (store : Store) (uidStr : String) : List Account :=
  match dictGet store uidStr with
  | some r => r.accounts
  | none => []

/-- Case-insensitive uniqueness invariant on an account sequence: no two
entries share a lowercased username (spec section 3, Account invariant). -/
def noDupCI : List Account → Bool
  | [] => true
  | a :: rest => rest.all (fun b => !(ciEq a.username b.username)) && noDupCI rest

/-- The account-update loop of `add_user_account` (src/bot.py lines
573-583): scan for the first case-insensitive username match; replace it
in place and stop, else append the new account at the end.  Also returns
the `updated` flag the source computes. -/
def upsertAccounts : List Account → Account → List Account × Bool
  | [], acc => ([acc], false)
  | a :: rest, acc =>
    if ciEq a.username acc.username then (acc :: rest, true)
    else
      let r := upsertAccounts rest acc
      (a :: r.1, r.2)

/-- Result of `add_user_account`: the (remote) store after the call and the
boolean the function returns. -/
structure AddResult where
  store : Store
  ok : Bool
deriving Repr, DecidableEq

/-- The `telegram_name` backfill inside `add_user_account` (src/bot.py
lines 587-591): when the stored name is falsy and the collapsed
`get_user_info` first name is truthy, copy it in; otherwise leave the
record alone. -/
def backfillName (firstName : Option String) (r : MemberRecord) : MemberRecord :=
  if r.telegram_name == "" then
    match firstName with
    | some n => { r with telegram_name := n }
    | none => r
  else r

/-- Source `add_user_account` (src/bot.py lines 557-607).
Parameters model the ambient I/O: `saveOk` is the outcome of
`save_data_with_retry` (on failure the remote store is unchanged and the
function returns `False`); `firstName` is the collapsed value of
`get_user_info(user_id).get("first_name")` when that dict and field are
truthy, else `none` (the `telegram_name` backfill at lines 587-591). -/
def add_user_account (saveOk : Bool) (firstName : Option String)
    (store : Store) (uidStr : String) (acc : Account) : AddResult :=
  let data1 :=
    match dictGet store uidStr with
    | some _ => store
    | none => dictSet store uidStr ⟨"", []⟩
  let rec0 := (dictGet data1 uidStr).getD ⟨"", []⟩
  let up := upsertAccounts rec0.accounts acc
  let rec1 : MemberRecord := { rec0 with accounts := up.1 }
  let rec2 : MemberRecord := backfillName firstName rec1
  let data2 := dictSet data1 uidStr rec2
  if saveOk then ⟨data2, true⟩ else ⟨store, false⟩

/-- Result of `delete_user_account`: the (remote) store after the call and
the boolean the function returns. -/
structure DeleteResult where
  store : Store
  removed : Bool
deriving Repr, DecidableEq

/-- Source `delete_user_account` (src/bot.py lines 369-381).  The list
comprehension keeps every account whose lowercased username differs from
the lowercased argument, so every case-insensitive match is dropped.  The
function returns `True` whenever the filter removed something, even when
`save_data_with_retry` fails (the failure is only logged, line 378-379);
on save failure the remote store is unchanged. -/
def delete_user_account (saveOk : Bool) (store : Store)
    (uidStr : String) (username : String) : DeleteResult :=
  match dictGet store uidStr with
  | none => ⟨store, false⟩
  | some rec0 =>
    let accounts := rec0.accounts
    let newAccounts := accounts.filter (fun a => !(ciEq a.username username))
    if newAccounts.length < accounts.length then
      let data2 := dictSet store uidStr { rec0 with accounts := newAccounts }
      if saveOk then ⟨data2, true⟩ else ⟨store, true⟩
    else ⟨store, false⟩

/-- The in-place value update loop of the edit flow (src/bot.py lines
2090-2095): find the first case-insensitive username match and overwrite
its attack and defense fields, keeping the stored username. -/
def updateAccountValues : List Account → String → Int → Int → List Account × Bool
  | [], _, _, _ => ([], false)
  | acc :: rest, u, atk, dfn =>
    if ciEq acc.username u then ({ acc with attack := atk, defense := dfn } :: rest, true)
    else
      let r := updateAccountValues rest u atk dfn
      (acc :: r.1, r.2)

/-- Outcome of one `save_data` invocation, i.e. of its internal
GET + PUT cycle against GitHub (src/bot.py lines 131-139): the PUT
succeeded, or `raise_for_status` raised an HTTPError with some status
(409 on a stale sha), or some other exception was raised. -/
inductive SaveOutcome where
  | success
  | httpError (status : Nat)
  | otherError
deriving Repr, DecidableEq

/-- Source `save_data` (src/bot.py lines 131-139): the whole cycle sits in
`try/except Exception`, so every exception — the 409 HTTPError included —
is caught, logged and turned into `False`.  `save_data` never raises. -/
def save_data (o : SaveOutcome) : Bool :=
  match o with
  | .success => true
  | .httpError _ => false
  | .otherError => false

/-- What a caller of `save_data` observes: a returned boolean or a raised
exception. -/
inductive CallResult where
  | returns (b : Bool)
  | raisesHttp (status : Nat)
  | raisesOther
deriving Repr, DecidableEq

/-- Calling `save_data`: because of its catch-all handler it always
returns, for every backend outcome. -/
def save_data_call (o : SaveOutcome) : CallResult :=
  CallResult.returns (save_data o)

/-- Trace of one `save_data_with_retry` run: how many times `save_data`
was invoked, the `time.sleep` durations performed between attempts (in
seconds), and the returned boolean. -/
structure RetryTrace where
  attempts : Nat
  sleeps : List ℚ
  result : Bool
deriving Repr, DecidableEq

/-- The `for attempt in range(retries)` loop of `save_data_with_retry`
(src/bot.py lines 250-265), recursing on the remaining iterations.
`outcome n` is the backend outcome of the save attempted in iteration
`n`.  A returned boolean is returned immediately (`return save_data(data)`);
an HTTPError with status 409 sleeps `delay * (attempt + 1)` and continues;
any other exception returns `False`; falling off the loop logs and
returns `False`. -/
def retry_from (outcome : Nat → SaveOutcome) (delay : ℚ) (attempt : Nat) :
    Nat → RetryTrace
  | 0 => ⟨0, [], false⟩
  | remaining + 1 =>
    match save_data_call (outcome attempt) with
    | .returns b => ⟨1, [], b⟩
    | .raisesHttp s =>
      if s = 409 then
        let t := retry_from outcome delay (attempt + 1) remaining
        ⟨t.attempts + 1, delay * (attempt + 1) :: t.sleeps, t.result⟩
      else ⟨1, [], false⟩
    | .raisesOther => ⟨1, [], false⟩

/-- Source `save_data_with_retry(data, retries=3, delay=0.5)`
(src/bot.py lines 250-265), as a trace over the backend outcomes of the
successive attempts.  The source defaults are `retries = 3`,
`delay = 0.5`. -/
def save_data_with_retry (outcome : Nat → SaveOutcome) (retries : Nat)
    (delay : ℚ) : RetryTrace :=
  retry_from outcome delay 0 retries

/-- One `user_info` entry (src/bot.py lines 152-157): Telegram username
(may be `None`), first name, last-interaction timestamp. -/
structure UserInfoEntry where
  username : Option String
  first_name : Option String
  last_interaction : Int
deriving Repr, DecidableEq

/-- The parsed authorization JSON document.  Each top-level key may be
missing in a stored document (the source reads with `get`/`setdefault`),
so every field is an `Option`. -/
structure AuthDoc where
  authorized_ids : Option (List Int)
  admin_ids : Option (List Int)
  user_info : Option (List (String × UserInfoEntry))
deriving Repr, DecidableEq

/-- Outcome of the authorization-document GET in `load_user_data`:
a parsed document, a 404 (content `None`), or a raised exception
(transport error, non-404 HTTP error, or a `json.loads` failure). -/
inductive GetOutcome where
  | found (doc : AuthDoc)
  | notFound
  | raised
deriving Repr, DecidableEq

/-- Result of `load_user_data`: the returned document and whether the call
performed a remote PUT (`_put_file_to_github`). -/
structure LoadResult where
  doc : AuthDoc
  putAttempted : Bool
deriving Repr, DecidableEq

/-- The `initial_data` document built by `load_user_data` when the file is
absent (src/bot.py lines 149-159).  `adminUsername` is `ADMIN_USERNAME if
ADMIN_USERNAME else None`; `now` is `int(time.time())`. -/
def initial_user_data (adminId : Int) (adminUsername : Option String)
    (now : Int) : AuthDoc :=
  { authorized_ids := some [adminId]
  , admin_ids := some [adminId]
  , user_info := some [(toString adminId,
      ⟨adminUsername, some "Administrador Principal", now⟩)] }

/-- The fallback document returned by the `except` branch of
`load_user_data` (src/bot.py lines 179-185). -/
def fallback_user_data (adminId : Int) : AuthDoc :=
  { authorized_ids := some [adminId]
  , admin_ids := some [adminId]
  , user_info := some [] }

/-- Source `load_user_data` (src/bot.py lines 143-185).  On a 404 it
builds `initial_data` and PUTs it to GitHub before returning it; if that
PUT raises, the `except` branch returns the in-memory fallback (`putOk`
models whether the PUT succeeds — the PUT is attempted either way).  On a
parsed document it ensures `user_info` exists and appends `ADMIN_USER_ID`
to `authorized_ids` and `admin_ids` when absent (`setdefault` + `append`,
lines 168-176), without writing.  On any raised error it returns the
fallback without writing. -/
def load_user_data (adminId : Int) (adminUsername : Option String)
    (now : Int) (putOk : Bool) (got : GetOutcome) : LoadResult :=
  match got with
  | .notFound =>
    if putOk then ⟨initial_user_data adminId adminUsername now, true⟩
    else ⟨fallback_user_data adminId, true⟩
  | .raised => ⟨fallback_user_data adminId, false⟩
  | .found d =>
    let d1 := if d.user_info = none then { d with user_info := some [] } else d
    let d2 :=
      if adminId ∈ d1.authorized_ids.getD [] then d1
      else { d1 with authorized_ids := some (d1.authorized_ids.getD [] ++ [adminId]) }
    let d3 :=
      if adminId ∈ d2.admin_ids.getD [] then d2
      else { d2 with admin_ids := some (d2.admin_ids.getD [] ++ [adminId]) }
    ⟨d3, false⟩

/-- Result of `callback_admin_delete_user`: clan store and authorization
document after the call, and whether the success message was shown. -/
structure AdminDeleteResult where
  store : Store
  auth : AuthDoc
  deleted : Bool
deriving Repr, DecidableEq

/-- Source `callback_admin_delete_user` (src/bot.py lines 1897-1927).
`uidStr` is the id taken from the callback data and `uidInt` models
`int(user_id_str)`.  If the id keys the clan store the record is popped
and saved; then the id is removed (`list.remove`, first occurrence) from
`authorized_ids` when present, and — only inside that branch — from
`admin_ids` when present, and the authorization document is saved.  There
is no owner check anywhere on this path. -/
def callback_admin_delete_user (store : Store) (auth : AuthDoc)
    (uidStr : String) (uidInt : Int) : AdminDeleteResult :=
  if (dictGet store uidStr).isSome then
    let store2 := dictRemove store uidStr
    let auth2 :=
      if uidInt ∈ auth.authorized_ids.getD [] then
        let a1 := { auth with authorized_ids := some ((auth.authorized_ids.getD []).erase uidInt) }
        if uidInt ∈ a1.admin_ids.getD [] then
          { a1 with admin_ids := some ((a1.admin_ids.getD []).erase uidInt) }
        else a1
      else auth
    ⟨store2, auth2, true⟩
  else ⟨store, auth, false⟩

/-- The `add_temp` scratch dict of the add-account flow: partially
collected username and attack. -/
structure AddTemp where
  username : Option String
  attack : Option Int
deriving Repr, DecidableEq

/-- Per-user `context.user_data`, one `Option` field per key the embedded
handlers touch (absent key = `none`). -/
structure UserData where
  add_step : Option String
  add_temp : Option AddTemp
  accounts_page : Option Nat
  admin_users_page : Option Nat
  editing_account : Option String
  edit_step : Option String
  pending_attack : Option Int
deriving Repr, DecidableEq

/-- User data with no key set (fresh session). -/
def emptyUserData : UserData := ⟨none, none, none, none, none, none, none⟩

/-- Python `text.replace(",", "")`: drop every comma. -/
def stripCommas (s : String) : String :=
  String.mk (s.data.filter (fun c => !(c == ',')))

/-- Digit list to number, most significant first. -/
def digitsToNat (l : List Char) : Nat :=
  l.foldl (fun acc c => acc * 10 + (c.toNat - ('0').toNat)) 0

/-- Modelled fragment of Python `int(text)` on the already-stripped texts
the handlers pass it: an optional ASCII sign followed by one or more
ASCII digits parses to that integer, anything else raises `ValueError`
(`none`).  Unicode digits and underscore grouping, which Python would
also accept, are outside the model; no input in the claims uses them. -/
def parsePyInt (s : String) : Option Int :=
  match s.data with
  | [] => none
  | c :: rest =>
    if c == '-' then
      if rest.isEmpty then none
      else if rest.all Char.isDigit then some (-(digitsToNat rest : Int)) else none
    else if c == '+' then
      if rest.isEmpty then none
      else if rest.all Char.isDigit then some ((digitsToNat rest : Int)) else none
    else if (c :: rest).all Char.isDigit then some ((digitsToNat (c :: rest) : Int))
    else none

/-- The distinct messages the add-account handler can send back. -/
inductive Reply where
  | overwritePrompt
  | askAttack
  | askDefense
  | invalidNumber
  | stateLost
  | registered
deriving Repr, DecidableEq

/-- Result of one `handle_add_account_steps` turn: new user data, the
(remote) store, the reply sent, and the returned handled flag. -/
structure AddStepResult where
  ud : UserData
  store : Store
  reply : Option Reply
  handled : Bool
deriving Repr, DecidableEq

/-- Source `handle_add_account_steps` (src/bot.py lines 1038-1117).
Mirrors the source turn by turn: bail out unhandled when `add_step` is
absent; in the username step record the trimmed text in `add_temp`
unconditionally and branch on a case-insensitive collision with the
member's stored accounts; in the attack and defense steps strip commas
and parse an integer, re-prompting in place on a parse failure and
accepting any parsed value; the defense step pops `add_temp`, declares
the state lost when the pending username is falsy or the pending attack
is `None`, otherwise commits through `add_user_account` and reports the
registered message without consulting that call's result.  `saveOk` and
`firstName` are threaded to `add_user_account` as ambient I/O. -/
def handle_add_account_steps (saveOk : Bool) (firstName : Option String)
    (uidStr : String) (store : Store) (ud : UserData) (rawText : String) :
    AddStepResult :=
  match ud.add_step with
  | none => ⟨ud, store, none, false⟩
  | some step =>
    let text := pyStrip rawText
    if step = "username" then
      let accounts := get_user_accounts store uidStr
      let existing := accounts.any (fun a => ciEq (a.username) text)
      let temp0 := ud.add_temp.getD ⟨none, none⟩
      let ud1 := { ud with add_temp := some { temp0 with username := some text } }
      if existing then
        ⟨{ ud1 with add_step := some "confirm_overwrite" }, store, some .overwritePrompt, true⟩
      else
        ⟨{ ud1 with add_step := some "attack" }, store, some .askAttack, true⟩
    else if step = "attack" then
      match parsePyInt (stripCommas text) with
      | none => ⟨ud, store, some .invalidNumber, true⟩
      | some v =>
        let temp0 := ud.add_temp.getD ⟨none, none⟩
        let temp1 : AddTemp := { temp0 with attack := some v }
        ⟨{ ud with add_temp := some temp1, add_step := some "defense" },
          store, some .askDefense, true⟩
    else if step = "defense" then
      match parsePyInt (stripCommas text) with
      | none => ⟨ud, store, some .invalidNumber, true⟩
      | some v =>
        let temp := ud.add_temp.getD ⟨none, none⟩
        let ud1 := { ud with add_temp := none }
        let usernameTruthy :=
          match temp.username with
          | some u => !(u == "")
          | none => false
        if !usernameTruthy || temp.attack.isNone then
          ⟨{ ud1 with add_step := none }, store, some .stateLost, true⟩
        else
          let uname := temp.username.getD ""
          let atk := temp.attack.getD 0
          let r := add_user_account saveOk firstName store uidStr ⟨uname, atk, v⟩
          ⟨{ ud1 with add_step := none }, r.store, some .registered, true⟩
    else ⟨ud, store, none, false⟩

/-- The distinct messages of the edit-value turn handler. -/
inductive EditReply where
  | invalidNumber
  | askDefense
  | stateLost
  | updated
  | notFound
deriving Repr, DecidableEq

/-- Result of one edit-flow turn. -/
structure EditStepResult where
  ud : UserData
  store : Store
  reply : Option EditReply
deriving Repr, DecidableEq

/-- The edit-account fragment of `handle_text_messages` (src/bot.py lines
2062-2103), reached when both `editing_account` and `edit_step` are set.
Strips commas and parses an integer, re-prompting without any state
change on failure; in the attack step stores any parsed value in
`pending_attack` and advances; in the defense step pops the three edit
keys, reports the state lost when the popped username or attack is
`None`, else updates the first case-insensitive account match in place
and saves (the save result is ignored — `updated` is reported either
way). -/
def handle_edit_value_steps (saveOk : Bool) (uidStr : String)
    (store : Store) (ud : UserData) (rawText : String) : EditStepResult :=
  if ud.editing_account.isSome && ud.edit_step.isSome then
    let text := pyStrip rawText
    match parsePyInt (stripCommas text) with
    | none => ⟨ud, store, some .invalidNumber⟩
    | some v =>
      let step := ud.edit_step.getD ""
      if step = "attack" then
        ⟨{ ud with pending_attack := some v, edit_step := some "defense" },
          store, some .askDefense⟩
      else if step = "defense" then
        let attack := ud.pending_attack
        let username := ud.editing_account
        let ud1 := { ud with pending_attack := none, editing_account := none, edit_step := none }
        match username, attack with
        | some u, some a =>
          match dictGet store uidStr with
          | some rec0 =>
            let upd := updateAccountValues rec0.accounts u a v
            if upd.2 then
              let store2 :=
                if saveOk then dictSet store uidStr { rec0 with accounts := upd.1 }
                else store
              ⟨ud1, store2, some .updated⟩
            else ⟨ud1, store, some .notFound⟩
          | none => ⟨ud1, store, some .notFound⟩
        | _, _ => ⟨ud1, store, some .stateLost⟩
      else ⟨ud, store, none⟩
  else ⟨ud, store, none⟩

/-- User-data effect of `callback_menu_back` (src/bot.py lines 1429-1441):
pops only the two pagination cursors; `handle_private_start`, which it
then calls, does not touch `user_data`. -/
def callback_menu_back_userdata (ud : UserData) : UserData :=
  { ud with accounts_page := none, admin_users_page := none }

/-- User-data effect of `callback_add_account_start` (src/bot.py lines
1024-1034): set `add_step` to `"username"` and pop `add_temp`. -/
def callback_add_account_start_userdata (ud : UserData) : UserData :=
  { ud with add_step := some "username", add_temp := none }

/-- User-data effect of `callback_add_cancel_overwrite` (src/bot.py lines
1136-1141): pop `add_step` and `add_temp`. -/
def callback_add_cancel_overwrite_userdata (ud : UserData) : UserData :=
  { ud with add_step := none, add_temp := none }

/-! Helper lemmas about the dictionary model. -/

theorem dictGet_dictSet_self (s : Store) (k : String) (v : MemberRecord) :
    dictGet (dictSet s k v) k = some v := by
  induction s with
  | nil => simp [dictGet, dictSet]
  | cons hd tl ih =>
    obtain ⟨k0, v0⟩ := hd
    by_cases h : (k0 == k) = true
    · simp [dictGet, dictSet, h]
    · have h' : (k0 == k) = false := by simpa using h
      simp [dictGet, dictSet, h', ih]

theorem dictSet_dictSet_self (s : Store) (k : String) (v w : MemberRecord) :
    dictSet (dictSet s k v) k w = dictSet s k w := by
  induction s with
  | nil => simp [dictSet]
  | cons hd tl ih =>
    obtain ⟨k0, v0⟩ := hd
    by_cases h : k0 == k
    · simp [dictSet, h]
    · simp [dictSet, h, ih]

theorem dictGet_eq_none_of_not_mem (s : Store) (k : String)
    (h : k ∉ s.map Prod.fst) : dictGet s k = none := by
  induction s with
  | nil => simp [dictGet]
  | cons hd tl ih =>
    obtain ⟨k0, v0⟩ := hd
    simp only [List.map_cons, List.mem_cons, not_or] at h
    have hk : (k0 == k) = false := by
      simp only [beq_eq_false_iff_ne, ne_eq]
      exact fun e => h.1 e.symm
    simp [dictGet, hk, ih h.2]

theorem dictGet_dictRemove_self (s : Store) (k : String)
    (h : (s.map Prod.fst).Nodup) : dictGet (dictRemove s k) k = none := by
  induction s with
  | nil => simp [dictRemove, dictGet]
  | cons hd tl ih =>
    obtain ⟨k0, v0⟩ := hd
    simp only [List.map_cons, List.nodup_cons] at h
    by_cases hk : k0 == k
    · have : k0 = k := by simpa using hk
      subst this
      simp only [dictRemove, beq_self_eq_true, if_pos]
      exact dictGet_eq_none_of_not_mem tl k0 h.1
    · simp [dictRemove, hk, dictGet, ih h.2]

/-! Helper lemmas about the account-upsert loop. -/

theorem ciEq_eq_true_iff (a b : String) :
    ciEq a b = true ↔ pyLower a = pyLower b := by
  simp [ciEq]

theorem ciEq_eq_false_iff (a b : String) :
    ciEq a b = false ↔ pyLower a ≠ pyLower b := by
  simp [ciEq]

theorem ciEq_refl (a : String) : ciEq a a = true := by
  simp [ciEq]

theorem upsert_again (l : List Account) (acc : Account) :
    upsertAccounts (upsertAccounts l acc).1 acc = ((upsertAccounts l acc).1, true) := by
  induction l with
  | nil => simp [upsertAccounts, ciEq_refl]
  | cons a rest ih =>
    by_cases h : ciEq a.username acc.username = true
    · simp [upsertAccounts, h, ciEq_refl]
    · have h' : ciEq a.username acc.username = false := by simpa using h
      simp [upsertAccounts, h', ih]

theorem upsert_nomatch (l : List Account) (acc : Account)
    (h : l.any (fun a => ciEq a.username acc.username) = false) :
    upsertAccounts l acc = (l ++ [acc], false) := by
  induction l with
  | nil => simp [upsertAccounts]
  | cons a rest ih =>
    simp only [List.any_cons, Bool.or_eq_false_iff] at h
    simp [upsertAccounts, h.1, ih h.2]

theorem upsert_match (l : List Account) (acc : Account)
    (h : l.any (fun a => ciEq a.username acc.username) = true) :
    upsertAccounts l acc =
      (l.set (l.findIdx (fun a => ciEq a.username acc.username)) acc, true) := by
  induction l with
  | nil => simp at h
  | cons a rest ih =>
    by_cases hm : ciEq a.username acc.username = true
    · simp [upsertAccounts, hm, List.findIdx_cons]
    · have hm' : ciEq a.username acc.username = false := by simpa using hm
      simp only [List.any_cons, hm', Bool.false_or] at h
      simp [upsertAccounts, hm', List.findIdx_cons, ih h]

theorem mem_upsert (l : List Account) (acc x : Account)
    (h : x ∈ (upsertAccounts l acc).1) : x ∈ l ∨ x = acc := by
  induction l with
  | nil =>
    simp only [upsertAccounts, List.mem_singleton] at h
    exact Or.inr h
  | cons a rest ih =>
    by_cases hm : ciEq a.username acc.username = true
    · simp only [upsertAccounts, hm, if_pos, List.mem_cons] at h
      rcases h with h | h
      · exact Or.inr h
      · exact Or.inl (List.mem_cons_of_mem _ h)
    · have hm' : ciEq a.username acc.username = false := by simpa using hm
      simp only [upsertAccounts, hm', Bool.false_eq_true, if_neg, List.mem_cons,
        not_false_eq_true] at h
      rcases h with h | h
      · exact Or.inl (by simp [h])
      · rcases ih h with h2 | h2
        · exact Or.inl (List.mem_cons_of_mem _ h2)
        · exact Or.inr h2

theorem noDupCI_upsert (l : List Account) (acc : Account)
    (h : noDupCI l = true) : noDupCI (upsertAccounts l acc).1 = true := by
  induction l with
  | nil => simp [upsertAccounts, noDupCI]
  | cons a rest ih =>
    simp only [noDupCI, Bool.and_eq_true, List.all_eq_true] at h
    by_cases hm : ciEq a.username acc.username = true
    · have hlow : pyLower a.username = pyLower acc.username :=
        (ciEq_eq_true_iff _ _).1 hm
      simp only [upsertAccounts, hm, if_pos, noDupCI, Bool.and_eq_true,
        List.all_eq_true]
      refine ⟨fun b hb => ?_, h.2⟩
      have hab : ciEq a.username b.username = false := by simpa using h.1 b hb
      have hne : pyLower acc.username ≠ pyLower b.username :=
        fun e => (ciEq_eq_false_iff _ _).1 hab (hlow.trans e)
      simp [(ciEq_eq_false_iff _ _).2 hne]
    · have hm' : ciEq a.username acc.username = false := by simpa using hm
      simp only [upsertAccounts, hm', Bool.false_eq_true, if_neg, noDupCI,
        Bool.and_eq_true, List.all_eq_true, not_false_eq_true]
      refine ⟨fun b hb => ?_, ih h.2⟩
      rcases mem_upsert rest acc b hb with h2 | h2
      · exact h.1 b h2
      · subst h2
        simp [hm']

/-! Helper lemmas about `add_user_account`. -/

theorem backfillName_accounts (fn : Option String) (r : MemberRecord) :
    (backfillName fn r).accounts = r.accounts := by
  cases r with
  | mk tn accs =>
    cases fn with
    | none => simp [backfillName]
    | some n =>
      by_cases h : (tn == "") = true
      · simp [backfillName, h]
      · have h' : (tn == "") = false := by simpa using h
        simp [backfillName, h']

theorem backfillName_idem (fn : Option String) (r : MemberRecord) :
    backfillName fn (backfillName fn r) = backfillName fn r := by
  cases r with
  | mk tn accs =>
    cases fn with
    | none => simp [backfillName]
    | some n =>
      by_cases h : (tn == "") = true
      · by_cases hn : (n == "") = true
        · have : n = "" := by simpa using hn
          subst this
          simp [backfillName, h]
        · have hn' : (n == "") = false := by simpa using hn
          simp [backfillName, h, hn']
      · have h' : (tn == "") = false := by simpa using h
        simp [backfillName, h']

theorem add_user_account_ok (fn : Option String) (store : Store)
    (uid : String) (acc : Account) :
    (add_user_account true fn store uid acc).ok = true := by
  unfold add_user_account
  cases dictGet store uid <;> rfl

theorem add_user_account_of_get_some (fn : Option String) (store : Store)
    (uid : String) (acc : Account) (r0 : MemberRecord)
    (h : dictGet store uid = some r0) :
    add_user_account true fn store uid acc =
      ⟨dictSet store uid
        (backfillName fn { r0 with accounts := (upsertAccounts r0.accounts acc).1 }), true⟩ := by
  simp [add_user_account, h]

theorem add_user_account_of_get_none (fn : Option String) (store : Store)
    (uid : String) (acc : Account)
    (h : dictGet store uid = none) :
    add_user_account true fn store uid acc =
      ⟨dictSet (dictSet store uid ⟨"", []⟩) uid
        (backfillName fn ⟨"", (upsertAccounts [] acc).1⟩), true⟩ := by
  simp [add_user_account, h, dictGet_dictSet_self]

theorem get_user_accounts_add (fn : Option String) (store : Store)
    (uid : String) (acc : Account) :
    get_user_accounts (add_user_account true fn store uid acc).store uid =
      (upsertAccounts (get_user_accounts store uid) acc).1 := by
  cases hm : dictGet store uid with
  | some r =>
    rw [add_user_account_of_get_some fn store uid acc r hm]
    simp [get_user_accounts, dictGet_dictSet_self, backfillName_accounts, hm]
  | none =>
    rw [add_user_account_of_get_none fn store uid acc hm]
    simp [get_user_accounts, dictGet_dictSet_self, backfillName_accounts, hm]

theorem add_user_account_fixpoint (fn : Option String) (uid : String)
    (acc : Account) (d : Store) (r2 : MemberRecord)
    (hup : upsertAccounts r2.accounts acc = (r2.accounts, true))
    (hbf : backfillName fn r2 = r2) :
    add_user_account true fn (dictSet d uid r2) uid acc = ⟨dictSet d uid r2, true⟩ := by
  rw [add_user_account_of_get_some fn (dictSet d uid r2) uid acc r2
    (dictGet_dictSet_self d uid r2)]
  have heta : ({ r2 with accounts := (upsertAccounts r2.accounts acc).1 }) = r2 := by
    rw [hup]
  rw [heta, hbf, dictSet_dictSet_self]

theorem add_user_account_idem (fn : Option String) (store : Store)
    (uid : String) (acc : Account) :
    add_user_account true fn (add_user_account true fn store uid acc).store uid acc =
      add_user_account true fn store uid acc := by
  cases hm : dictGet store uid with
  | some r =>
    rw [add_user_account_of_get_some fn store uid acc r hm]
    have hup : upsertAccounts (backfillName fn { r with accounts := (upsertAccounts r.accounts acc).1 }).accounts acc =
        ((backfillName fn { r with accounts := (upsertAccounts r.accounts acc).1 }).accounts, true) := by
      rw [backfillName_accounts]
      exact upsert_again r.accounts acc
    exact add_user_account_fixpoint fn uid acc store _ hup
      (backfillName_idem fn { r with accounts := (upsertAccounts r.accounts acc).1 })
  | none =>
    rw [add_user_account_of_get_none fn store uid acc hm]
    have hup : upsertAccounts (backfillName fn ⟨"", (upsertAccounts [] acc).1⟩).accounts acc =
        ((backfillName fn ⟨"", (upsertAccounts [] acc).1⟩).accounts, true) := by
      rw [show (backfillName fn ⟨"", (upsertAccounts [] acc).1⟩).accounts =
        (upsertAccounts [] acc).1 from backfillName_accounts fn _]
      exact upsert_again [] acc
    exact add_user_account_fixpoint fn uid acc (dictSet store uid ⟨"", []⟩) _ hup
      (backfillName_idem fn ⟨"", (upsertAccounts [] acc).1⟩)

/-! Helper lemmas about the deletion filter. -/

theorem filter_keep_of_any_false (l : List Account) (g : Account → Bool)
    (h : l.any g = false) : l.filter (fun a => !(g a)) = l := by
  induction l with
  | nil => simp
  | cons a rest ih =>
    simp only [List.any_cons, Bool.or_eq_false_iff] at h
    simp [List.filter_cons, h.1, ih h.2]

theorem filter_length_lt_of_any (l : List Account) (g : Account → Bool)
    (h : l.any g = true) :
    (l.filter (fun a => !(g a))).length < l.length := by
  induction l with
  | nil => simp at h
  | cons a rest ih =>
    by_cases hg : g a = true
    · simp only [List.filter_cons, hg, Bool.not_true, List.length_cons]
      exact Nat.lt_succ_of_le (List.length_filter_le _ _)
    · have hg' : g a = false := by simpa using hg
      simp only [List.any_cons, hg', Bool.false_or] at h
      simp only [List.filter_cons, hg', Bool.not_false, List.length_cons]
      exact Nat.succ_lt_succ (ih h)

theorem noDupCI_filter_length (l : List Account) (uname : String)
    (hnd : noDupCI l = true)
    (h : l.any (fun a => ciEq a.username uname) = true) :
    (l.filter (fun a => !(ciEq a.username uname))).length + 1 = l.length := by
  induction l with
  | nil => simp at h
  | cons a rest ih =>
    simp only [noDupCI, Bool.and_eq_true, List.all_eq_true] at hnd
    by_cases hg : ciEq a.username uname = true
    · have hrest : rest.any (fun b => ciEq b.username uname) = false := by
        rw [List.any_eq_false]
        intro b hb
        have hab : ciEq a.username b.username = false := by simpa using hnd.1 b hb
        have halow := (ciEq_eq_true_iff _ _).1 hg
        have hne := (ciEq_eq_false_iff _ _).1 hab
        intro hbe
        exact hne (halow.trans ((ciEq_eq_true_iff _ _).1 hbe).symm)
      simp [List.filter_cons, hg, filter_keep_of_any_false rest _ hrest]
    · have hg' : ciEq a.username uname = false := by simpa using hg
      simp only [List.any_cons, hg', Bool.false_or] at h
      have hih := ih hnd.2 h
      simp only [List.filter_cons, hg', Bool.not_false, if_pos, List.length_cons]
      omega

/-! Helper lemmas about the edit flow's value-update loop. -/

theorem updateAccountValues_nomatch (l : List Account) (u : String)
    (atk dfn : Int)
    (h : l.any (fun x => ciEq x.username u) = false) :
    updateAccountValues l u atk dfn = (l, false) := by
  induction l with
  | nil => simp [updateAccountValues]
  | cons a rest ih =>
    simp only [List.any_cons, Bool.or_eq_false_iff] at h
    simp [updateAccountValues, h.1, ih h.2]

theorem updateAccountValues_first_match (l1 : List Account) (m : Account)
    (l2 : List Account) (u : String) (atk dfn : Int)
    (h1 : l1.any (fun x => ciEq x.username u) = false)
    (hm : ciEq m.username u = true) :
    updateAccountValues (l1 ++ m :: l2) u atk dfn =
      (l1 ++ { m with attack := atk, defense := dfn } :: l2, true) := by
  induction l1 with
  | nil => simp [updateAccountValues, hm]
  | cons a rest ih =>
    simp only [List.any_cons, Bool.or_eq_false_iff] at h1
    simp [updateAccountValues, h1.1, ih h1.2]

/-- Migration guard of `load_user_data` on a parsed document: the
configured owner id ends up in both lists of the returned document. -/
theorem load_found_owner_mem (adminId : Int) (au : Option String)
    (now : Int) (d : AuthDoc) :
    adminId ∈ (load_user_data adminId au now true (GetOutcome.found d)).doc.authorized_ids.getD [] ∧
    adminId ∈ (load_user_data adminId au now true (GetOutcome.found d)).doc.admin_ids.getD [] := by
  simp only [load_user_data]
  constructor <;>
  · split <;> split <;> split <;> simp_all [List.mem_append]

/-! Claim theorems. -/

/-- C1 (divergence, evaluated at the failing input): against a backend
that rejects every PUT with HTTP 409, `save_data_with_retry` with
`retries = 3` and the default `delay = 0.5` invokes `save_data` exactly
once, performs no backoff sleep, and returns failure.  The loop's 409
handler is unreachable for every backend outcome, because `save_data`
catches the HTTPError itself (`except Exception`) and returns `False`,
which `return save_data(data)` propagates on the first iteration — so the
claimed three attempts with increasing backoff never happen. -/
theorem C1_save_with_retry_one_attempt_on_conflict :
    save_data_with_retry (fun _ => SaveOutcome.httpError 409) 3 (1 / 2) =
      ⟨1, [], false⟩ ∧
    ∀ o : SaveOutcome, save_data_call o = CallResult.returns (save_data o) :=
  ⟨rfl, fun _ => rfl⟩

/-- C2 counterexample: `add_user_account` does not return a tag telling
`created` from `updated` — it returns the same success boolean `True` on
the first (creating) call and on the second identical (updating) call,
so the second call cannot return a distinguishable `updated` tag. -/
theorem C2_return_does_not_distinguish_created_from_updated :
    (add_user_account true none [] "1001" ⟨"Guerrero123", 15000, 12000⟩).ok =
      (add_user_account true none
        (add_user_account true none [] "1001" ⟨"Guerrero123", 15000, 12000⟩).store
        "1001" ⟨"Guerrero123", 15000, 12000⟩).ok ∧
    (add_user_account true none [] "1001" ⟨"Guerrero123", 15000, 12000⟩).ok = true := by
  constructor
  · rfl
  · rfl

/-- C2 (amended): calling `add_user_account` twice with identical
(member, account) content yields exactly the same stored state as calling
it once, and the second call takes the update-in-place path of the upsert
loop; the returned value, however, is a success boolean (`True` on both
calls), not a created-versus-updated tag — that distinction exists only
in the log message. -/
theorem C2_upsert_idempotent_boolean_return (fn : Option String)
    (store : Store) (uid : String) (acc : Account) :
    add_user_account true fn (add_user_account true fn store uid acc).store uid acc =
      add_user_account true fn store uid acc ∧
    (add_user_account true fn store uid acc).ok = true ∧
    (upsertAccounts (get_user_accounts (add_user_account true fn store uid acc).store uid) acc).2 = true := by
  refine ⟨add_user_account_idem fn store uid acc, add_user_account_ok fn store uid acc, ?_⟩
  rw [get_user_accounts_add, upsert_again]

/-- C3: under the case-insensitive uniqueness invariant, an upsert
preserves the invariant; a write whose username case-insensitively
matches an existing account replaces that entry in place at the first
matching position, leaving the sequence length unchanged, and a
non-matching write appends; submitting usernames `Foo` then `foo` for a
fresh member leaves exactly one stored account carrying the second
submission's values. -/
theorem C3_case_insensitive_uniqueness (fn : Option String) (store : Store)
    (uid : String) (acc : Account)
    (h : noDupCI (get_user_accounts store uid) = true) :
    noDupCI (get_user_accounts (add_user_account true fn store uid acc).store uid) = true ∧
    ((get_user_accounts store uid).any (fun a => ciEq a.username acc.username) = true →
      get_user_accounts (add_user_account true fn store uid acc).store uid =
        (get_user_accounts store uid).set
          ((get_user_accounts store uid).findIdx (fun a => ciEq a.username acc.username)) acc ∧
      (get_user_accounts (add_user_account true fn store uid acc).store uid).length =
        (get_user_accounts store uid).length) ∧
    ((get_user_accounts store uid).any (fun a => ciEq a.username acc.username) = false →
      get_user_accounts (add_user_account true fn store uid acc).store uid =
        get_user_accounts store uid ++ [acc]) ∧
    get_user_accounts
      (add_user_account true none
        (add_user_account true none [] "1001" ⟨"Foo", 100, 200⟩).store
        "1001" ⟨"foo", 20000, 18000⟩).store "1001" = [⟨"foo", 20000, 18000⟩] := by
  refine ⟨?_, ?_, ?_, ?_⟩
  · rw [get_user_accounts_add]
    exact noDupCI_upsert _ acc h
  · intro hm
    rw [get_user_accounts_add, upsert_match _ acc hm]
    exact ⟨rfl, by simp⟩
  · intro hm
    rw [get_user_accounts_add, upsert_nomatch _ acc hm]
  · decide

/-- C3 witness: the invariant-preservation conclusion instantiated on a
concrete singleton store. -/
theorem C3_case_insensitive_uniqueness_witness :
    noDupCI (get_user_accounts
      (add_user_account true none [] "1001" ⟨"Foo", 1, 2⟩).store "1001") = true :=
  (C3_case_insensitive_uniqueness none [] "1001" ⟨"Foo", 1, 2⟩ (by decide)).1

/-- C4 counterexample: with the configured owner id 999, deleting the
owner succeeds — `callback_admin_delete_user` reports success, removes
the owner's member record from the clan store, and removes the owner
from both saved authorization lists; nothing on this path rejects the
owner identifier. -/
theorem C4_owner_record_deleted :
    (callback_admin_delete_user [("999", ⟨"Owner", [⟨"Acc", 1, 1⟩]⟩)]
      ⟨some [999], some [999], some []⟩ "999" 999).deleted = true ∧
    (callback_admin_delete_user [("999", ⟨"Owner", [⟨"Acc", 1, 1⟩]⟩)]
      ⟨some [999], some [999], some []⟩ "999" 999).store = [] ∧
    (callback_admin_delete_user [("999", ⟨"Owner", [⟨"Acc", 1, 1⟩]⟩)]
      ⟨some [999], some [999], some []⟩ "999" 999).auth =
      ⟨some [], some [], some []⟩ := by
  decide

/-- C4 (amended): `callback_admin_delete_user` performs no owner check:
every identifier keying the clan store — the configured owner included —
has its member record removed and is removed from the saved
authorization lists, with success reported to the caller.  The owner's
authorization is only re-established in memory because every subsequent
`load_user_data` of a parsed document appends `ADMIN_USER_ID` back into
both lists. -/
theorem C4_delete_member_no_owner_check (store : Store) (auth : AuthDoc)
    (uidStr : String) (uidInt : Int)
    (hnd : (store.map Prod.fst).Nodup)
    (hmem : (dictGet store uidStr).isSome = true) :
    (callback_admin_delete_user store auth uidStr uidInt).deleted = true ∧
    dictGet (callback_admin_delete_user store auth uidStr uidInt).store uidStr = none ∧
    (∀ (adminId : Int) (au : Option String) (now : Int) (d : AuthDoc),
      adminId ∈ (load_user_data adminId au now true (GetOutcome.found d)).doc.authorized_ids.getD [] ∧
      adminId ∈ (load_user_data adminId au now true (GetOutcome.found d)).doc.admin_ids.getD []) := by
  refine ⟨?_, ?_, fun adminId au now d => load_found_owner_mem adminId au now d⟩
  · simp [callback_admin_delete_user, hmem]
  · simp [callback_admin_delete_user, hmem, dictGet_dictRemove_self store uidStr hnd]

/-- C4 witness: the no-owner-check conclusion instantiated on a concrete
store keyed by the owner. -/
theorem C4_delete_member_no_owner_check_witness :
    (callback_admin_delete_user [("999", ⟨"N", []⟩)]
      ⟨some [999], some [999], some []⟩ "999" 999).deleted = true :=
  (C4_delete_member_no_owner_check [("999", ⟨"N", []⟩)]
    ⟨some [999], some [999], some []⟩ "999" 999 (by decide) (by decide)).1

/-- C5 counterexample: in the attack-awaiting state the input `0` — an
integer that is not positive — is parsed and accepted: it is stored in
the scratch state and the machine advances to the defense step instead
of re-prompting, so non-positive values are accepted and stored. -/
theorem C5_zero_accepted_in_attack_state :
    handle_add_account_steps true none "1001" []
      ⟨some "attack", some ⟨some "Guerrero123", none⟩, none, none, none, none, none⟩ "0" =
    ⟨⟨some "defense", some ⟨some "Guerrero123", some 0⟩, none, none, none, none, none⟩,
      [], some Reply.askDefense, true⟩ := by
  decide

/-- C5 (amended): in the states awaiting the attack or defense value —
in the add flow and in the edit flow alike — the input has commas
stripped and is parsed as an integer, and the machine rejects,
re-prompts and stays in the same state exactly when parsing fails; no
positivity check exists, so zero and negative parsed values are accepted
like any others.  An accepted attack value is stored in the scratch
state and advances the flow; an accepted defense value is committed —
in the add flow through `add_user_account`, and in the edit flow by
overwriting the first case-insensitively matching account in place with
the pending attack and the parsed defense, except that when the member
or the edited account no longer exists the edit flow exits its state
with a not-found reply and the parsed value is discarded. -/
theorem C5_reject_iff_parse_failure (saveOk : Bool) (fn : Option String)
    (uid : String) (store : Store) (ud : UserData) (text : String) :
    (ud.add_step = some "attack" →
      (parsePyInt (stripCommas (pyStrip text)) = none →
        handle_add_account_steps saveOk fn uid store ud text =
          ⟨ud, store, some Reply.invalidNumber, true⟩) ∧
      (∀ v, parsePyInt (stripCommas (pyStrip text)) = some v →
        handle_add_account_steps saveOk fn uid store ud text =
          ⟨{ ud with add_temp := some ⟨(ud.add_temp.getD ⟨none, none⟩).username, some v⟩, add_step := some "defense" },
            store, some Reply.askDefense, true⟩)) ∧
    (ud.add_step = some "defense" →
      parsePyInt (stripCommas (pyStrip text)) = none →
        handle_add_account_steps saveOk fn uid store ud text =
          ⟨ud, store, some Reply.invalidNumber, true⟩) ∧
    (∀ u a v, ud.add_step = some "defense" →
      ud.add_temp = some ⟨some u, some a⟩ → (u == "") = false →
      parsePyInt (stripCommas (pyStrip text)) = some v →
      handle_add_account_steps saveOk fn uid store ud text =
        ⟨{ ud with add_temp := none, add_step := none },
          (add_user_account saveOk fn store uid ⟨u, a, v⟩).store,
          some Reply.registered, true⟩) ∧
    (ud.editing_account.isSome = true → ud.edit_step.isSome = true →
      (parsePyInt (stripCommas (pyStrip text)) = none →
        handle_edit_value_steps saveOk uid store ud text =
          ⟨ud, store, some EditReply.invalidNumber⟩) ∧
      (∀ v, parsePyInt (stripCommas (pyStrip text)) = some v →
        ud.edit_step = some "attack" →
        handle_edit_value_steps saveOk uid store ud text =
          ⟨{ ud with pending_attack := some v, edit_step := some "defense" },
            store, some EditReply.askDefense⟩)) ∧
    (∀ u a v, ud.editing_account = some u → ud.edit_step = some "defense" →
      ud.pending_attack = some a →
      parsePyInt (stripCommas (pyStrip text)) = some v →
      (dictGet store uid = none →
        handle_edit_value_steps saveOk uid store ud text =
          ⟨{ ud with pending_attack := none, editing_account := none, edit_step := none },
            store, some EditReply.notFound⟩) ∧
      (∀ r, dictGet store uid = some r →
        (r.accounts.any (fun x => ciEq x.username u) = false →
          handle_edit_value_steps saveOk uid store ud text =
            ⟨{ ud with pending_attack := none, editing_account := none, edit_step := none },
              store, some EditReply.notFound⟩) ∧
        (∀ l1 m l2, r.accounts = l1 ++ m :: l2 →
          l1.any (fun x => ciEq x.username u) = false →
          ciEq m.username u = true →
          handle_edit_value_steps saveOk uid store ud text =
            ⟨{ ud with pending_attack := none, editing_account := none, edit_step := none },
              (if saveOk then
                dictSet store uid { r with accounts := l1 ++ { m with attack := a, defense := v } :: l2 }
              else store),
              some EditReply.updated⟩))) := by
  refine ⟨fun h => ⟨fun hp => ?_, fun v hp => ?_⟩,
    fun h hp => ?_, fun u a v h ht hu hp => ?_,
    fun he hs => ⟨fun hp => ?_, fun v hp hstep => ?_⟩,
    fun u a v he hs ha hp => ⟨fun hm => ?_, fun r hm => ⟨fun hany => ?_, fun l1 m l2 hdec h1 h2 => ?_⟩⟩⟩
  · simp [handle_add_account_steps, h, hp]
  · simp [handle_add_account_steps, h, hp]
  · simp [handle_add_account_steps, h, hp]
  · simp [handle_add_account_steps, h, ht, hu, hp]
  · simp [handle_edit_value_steps, he, hs, hp]
  · simp [handle_edit_value_steps, he, hs, hp, hstep]
  · simp [handle_edit_value_steps, he, hs, ha, hp, hm]
  · simp [handle_edit_value_steps, he, hs, ha, hp, hm,
      updateAccountValues_nomatch r.accounts u a v hany]
  · simp [handle_edit_value_steps, he, hs, ha, hp, hm, hdec,
      updateAccountValues_first_match l1 m l2 u a v h1 h2]

/-- C5 witness: the parse-failure rejection applied in the concrete
attack state on the non-numeric input `abc`. -/
theorem C5_reject_iff_parse_failure_witness :
    handle_add_account_steps true none "1001" []
      ⟨some "attack", none, none, none, none, none, none⟩ "abc" =
      ⟨⟨some "attack", none, none, none, none, none, none⟩, [],
        some Reply.invalidNumber, true⟩ :=
  ((C5_reject_iff_parse_failure true none "1001" []
    ⟨some "attack", none, none, none, none, none, none⟩ "abc").1 rfl).1 (by decide)

/-- C6 counterexample: in the username-awaiting state the two-character
submission `ab` (trimmed length 2 < 3) is not rejected: it is recorded
in the scratch state and the machine advances to the attack step. -/
theorem C6_short_username_accepted :
    handle_add_account_steps true none "1001" []
      ⟨some "username", none, none, none, none, none, none⟩ "ab" =
    ⟨⟨some "attack", some ⟨some "ab", none⟩, none, none, none, none, none⟩,
      [], some Reply.askAttack, true⟩ := by
  decide

/-- C6 (amended): the username step performs no length validation at
all: every submitted text is trimmed, recorded in the scratch state, and
advances the machine — to the overwrite-confirmation state when it
case-insensitively collides with one of the member's stored accounts,
else to the attack step. -/
theorem C6_username_recorded_unvalidated (saveOk : Bool) (fn : Option String)
    (uid : String) (store : Store) (ud : UserData) (text : String)
    (h : ud.add_step = some "username") :
    (handle_add_account_steps saveOk fn uid store ud text).handled = true ∧
    (handle_add_account_steps saveOk fn uid store ud text).store = store ∧
    (handle_add_account_steps saveOk fn uid store ud text).ud.add_temp =
      some ⟨some (pyStrip text), (ud.add_temp.getD ⟨none, none⟩).attack⟩ ∧
    ((get_user_accounts store uid).any (fun a => ciEq a.username (pyStrip text)) = true →
      (handle_add_account_steps saveOk fn uid store ud text).ud.add_step = some "confirm_overwrite" ∧
      (handle_add_account_steps saveOk fn uid store ud text).reply = some Reply.overwritePrompt) ∧
    ((get_user_accounts store uid).any (fun a => ciEq a.username (pyStrip text)) = false →
      (handle_add_account_steps saveOk fn uid store ud text).ud.add_step = some "attack" ∧
      (handle_add_account_steps saveOk fn uid store ud text).reply = some Reply.askAttack) := by
  by_cases hex : (get_user_accounts store uid).any (fun a => ciEq a.username (pyStrip text)) = true
  · simp [handle_add_account_steps, h, hex]
  · have hex' : (get_user_accounts store uid).any (fun a => ciEq a.username (pyStrip text)) = false := by
      simpa using hex
    simp [handle_add_account_steps, h, hex']

/-- C6 witness: the no-validation conclusion applied to the concrete
one-character username `x` on an empty store. -/
theorem C6_username_recorded_unvalidated_witness :
    (handle_add_account_steps true none "1001" []
      ⟨some "username", none, none, none, none, none, none⟩ "x").handled = true :=
  (C6_username_recorded_unvalidated true none "1001" []
    ⟨some "username", none, none, none, none, none, none⟩ "x" rfl).1

/-- C7 counterexample: on a member whose stored sequence holds the two
case-insensitive duplicates `Foo` and `foo`, deleting `FOO` removes
both — the sequence length decreases by two, not exactly one, because
the filter drops every case-insensitive match, not only the first. -/
theorem C7_delete_removes_all_ci_matches :
    (delete_user_account true [("1", ⟨"N", [⟨"Foo", 1, 1⟩, ⟨"foo", 2, 2⟩]⟩)]
      "1" "FOO").removed = true ∧
    get_user_accounts
      (delete_user_account true [("1", ⟨"N", [⟨"Foo", 1, 1⟩, ⟨"foo", 2, 2⟩]⟩)]
        "1" "FOO").store "1" = [] := by
  decide

/-- C7 (amended): `delete_user_account` returns false and leaves the
store unmodified when the member or a case-insensitive matching username
is absent; when a match exists it removes every case-insensitive match
(not only the first), returns true, and when the member's sequence
satisfies the uniqueness invariant — so the match is unique — the
sequence length decreases by exactly one. -/
theorem C7_delete_account_correctness (saveOk : Bool) (store : Store)
    (uid uname : String) :
    ((get_user_accounts store uid).any (fun a => ciEq a.username uname) = false →
      delete_user_account saveOk store uid uname = ⟨store, false⟩) ∧
    ((get_user_accounts store uid).any (fun a => ciEq a.username uname) = true →
      (delete_user_account saveOk store uid uname).removed = true ∧
      get_user_accounts (delete_user_account true store uid uname).store uid =
        (get_user_accounts store uid).filter (fun a => !(ciEq a.username uname)) ∧
      (noDupCI (get_user_accounts store uid) = true →
        (get_user_accounts (delete_user_account true store uid uname).store uid).length + 1 =
          (get_user_accounts store uid).length)) := by
  constructor
  · intro hany
    cases hm : dictGet store uid with
    | none => simp [delete_user_account, hm]
    | some r =>
      have hl : get_user_accounts store uid = r.accounts := by
        simp [get_user_accounts, hm]
      rw [hl] at hany
      simp [delete_user_account, hm, filter_keep_of_any_false r.accounts _ hany]
  · intro hany
    cases hm : dictGet store uid with
    | none =>
      have hl : get_user_accounts store uid = [] := by
        simp [get_user_accounts, hm]
      rw [hl] at hany
      simp at hany
    | some r =>
      have hl : get_user_accounts store uid = r.accounts := by
        simp [get_user_accounts, hm]
      rw [hl] at hany
      have hlt := filter_length_lt_of_any r.accounts _ hany
      have hacc : get_user_accounts (delete_user_account true store uid uname).store uid =
          r.accounts.filter (fun a => !(ciEq a.username uname)) := by
        simp [delete_user_account, hm, hlt, get_user_accounts, dictGet_dictSet_self]
      refine ⟨?_, by rw [hacc, hl], ?_⟩
      · cases saveOk <;> simp [delete_user_account, hm, hlt]
      · intro hdup
        rw [hacc, hl]
        rw [hl] at hdup
        exact noDupCI_filter_length r.accounts uname hdup hany

/-- C7 witness: deletion of an absent username on a concrete store
returns false and leaves the store unmodified. -/
theorem C7_delete_account_correctness_witness :
    delete_user_account true [("1", ⟨"N", [⟨"Foo", 1, 1⟩]⟩)] "1" "X" =
      ⟨[("1", ⟨"N", [⟨"Foo", 1, 1⟩]⟩)], false⟩ :=
  (C7_delete_account_correctness true [("1", ⟨"N", [⟨"Foo", 1, 1⟩]⟩)] "1" "X").1 (by decide)

/-- C8 counterexample: with a backend on which every save fails, the
commit step of the add-account flow still replies with the registered
success message while the store is left unchanged, and
`delete_user_account` still returns true while the store is left
unchanged — the caller is told success for mutations that were not
applied. -/
theorem C8_save_failure_reported_as_success :
    (handle_add_account_steps false none "1001" [("1001", ⟨"N", [⟨"G", 5, 5⟩]⟩)]
      ⟨some "defense", some ⟨some "G", some 7⟩, none, none, none, none, none⟩ "9").reply =
      some Reply.registered ∧
    (handle_add_account_steps false none "1001" [("1001", ⟨"N", [⟨"G", 5, 5⟩]⟩)]
      ⟨some "defense", some ⟨some "G", some 7⟩, none, none, none, none, none⟩ "9").store =
      [("1001", ⟨"N", [⟨"G", 5, 5⟩]⟩)] ∧
    (delete_user_account false [("1001", ⟨"N", [⟨"G", 5, 5⟩]⟩)] "1001" "G").removed = true ∧
    (delete_user_account false [("1001", ⟨"N", [⟨"G", 5, 5⟩]⟩)] "1001" "G").store =
      [("1001", ⟨"N", [⟨"G", 5, 5⟩]⟩)] := by
  decide

/-- C8 (amended): when persistence fails after exhausting retries, the
mutation is indeed not applied (the remote store is unchanged) and
`add_user_account` itself returns failure; but the commit step of the
add-account flow ignores that result and reports the registered success
message, and `delete_user_account` still returns true whenever a match
was removed in memory — the failure is only logged, and the user is not
told. -/
theorem C8_failure_surfacing_semantics (fn : Option String) (uid : String)
    (store : Store) (acc : Account) (ud : UserData) (text : String)
    (u : String) (a v : Int) (uname : String)
    (h1 : ud.add_step = some "defense")
    (h2 : ud.add_temp = some ⟨some u, some a⟩)
    (h3 : (u == "") = false)
    (h4 : parsePyInt (stripCommas (pyStrip text)) = some v) :
    (add_user_account false fn store uid acc).ok = false ∧
    (add_user_account false fn store uid acc).store = store ∧
    (handle_add_account_steps false fn uid store ud text).reply = some Reply.registered ∧
    (handle_add_account_steps false fn uid store ud text).store = store ∧
    ((get_user_accounts store uid).any (fun x => ciEq x.username uname) = true →
      (delete_user_account false store uid uname).removed = true ∧
      (delete_user_account false store uid uname).store = store) := by
  have hadd : ∀ acc2 : Account, (add_user_account false fn store uid acc2).store = store ∧
      (add_user_account false fn store uid acc2).ok = false := by
    intro acc2
    unfold add_user_account
    cases dictGet store uid <;> exact ⟨rfl, rfl⟩
  refine ⟨(hadd acc).2, (hadd acc).1, ?_, ?_, ?_⟩
  · simp [handle_add_account_steps, h1, h2, h3, h4]
  · simp [handle_add_account_steps, h1, h2, h3, h4, (hadd ⟨u, a, v⟩).1]
  · intro hany
    cases hm : dictGet store uid with
    | none =>
      have hl : get_user_accounts store uid = [] := by
        simp [get_user_accounts, hm]
      rw [hl] at hany
      simp at hany
    | some r =>
      have hl : get_user_accounts store uid = r.accounts := by
        simp [get_user_accounts, hm]
      rw [hl] at hany
      have hlt := filter_length_lt_of_any r.accounts _ hany
      simp [delete_user_account, hm, hlt]

/-- C8 witness: the unreported-failure conclusions applied at a concrete
state and store. -/
theorem C8_failure_surfacing_semantics_witness :
    (handle_add_account_steps false none "1001" []
      ⟨some "defense", some ⟨some "G", some 7⟩, none, none, none, none, none⟩ "9").reply =
      some Reply.registered :=
  (C8_failure_surfacing_semantics none "1001" [] ⟨"G", 7, 9⟩
    ⟨some "defense", some ⟨some "G", some 7⟩, none, none, none, none, none⟩ "9"
    "G" 7 9 "G" rfl rfl (by decide) (by decide)).2.2.1

/-- C9 counterexample: with the add flow mid-way in the attack step, the
cancellation target `callback_menu_back` leaves `add_step` and
`add_temp` in place, so the next text message is still consumed by the
flow handler and stored into the scratch state — cancellation does not
clear the Session Scratch State. -/
theorem C9_menu_back_preserves_flow_scratch :
    (callback_menu_back_userdata
      ⟨some "attack", some ⟨some "Guerrero123", none⟩, some 2, none, none, none, none⟩).add_step =
      some "attack" ∧
    (handle_add_account_steps true none "1001" []
      (callback_menu_back_userdata
        ⟨some "attack", some ⟨some "Guerrero123", none⟩, some 2, none, none, none, none⟩)
      "123").handled = true ∧
    (handle_add_account_steps true none "1001" []
      (callback_menu_back_userdata
        ⟨some "attack", some ⟨some "Guerrero123", none⟩, some 2, none, none, none, none⟩)
      "123").ud.add_temp = some ⟨some "Guerrero123", some 123⟩ := by
  decide

/-- C9 (amended): the cancel buttons of the add flow navigate to
`callback_menu_back`, which pops only the two pagination cursors and
leaves `add_step` and `add_temp` untouched, so the flow scratch state
survives cancellation; only the overwrite-branch abort
(`callback_add_cancel_overwrite`) clears both keys unconditionally, and
restarting the flow (`callback_add_account_start`) resets the scratch. -/
theorem C9_cancellation_scratch_effects (ud : UserData) :
    (callback_menu_back_userdata ud).accounts_page = none ∧
    (callback_menu_back_userdata ud).admin_users_page = none ∧
    (callback_menu_back_userdata ud).add_step = ud.add_step ∧
    (callback_menu_back_userdata ud).add_temp = ud.add_temp ∧
    (callback_add_cancel_overwrite_userdata ud).add_step = none ∧
    (callback_add_cancel_overwrite_userdata ud).add_temp = none ∧
    (callback_add_account_start_userdata ud).add_step = some "username" ∧
    (callback_add_account_start_userdata ud).add_temp = none := by
  simp [callback_menu_back_userdata, callback_add_cancel_overwrite_userdata,
    callback_add_account_start_userdata]

/-- C10: when the authorization document is absent (404),
`load_user_data` does not return an empty result: it builds the initial
document, whose `authorized_ids` and `admin_ids` both contain the
configured owner id, and attempts a remote PUT of it during the read —
returning that document when the PUT succeeds; on any other load failure
it returns the in-memory fallback containing the owner in both lists,
without writing. -/
theorem C10_load_user_data_absent_creates_and_writes (adminId : Int)
    (au : Option String) (now : Int) (putOk : Bool) :
    (load_user_data adminId au now putOk GetOutcome.notFound).putAttempted = true ∧
    adminId ∈ (load_user_data adminId au now putOk GetOutcome.notFound).doc.authorized_ids.getD [] ∧
    adminId ∈ (load_user_data adminId au now putOk GetOutcome.notFound).doc.admin_ids.getD [] ∧
    (load_user_data adminId au now true GetOutcome.notFound).doc =
      initial_user_data adminId au now ∧
    load_user_data adminId au now putOk GetOutcome.raised =
      ⟨fallback_user_data adminId, false⟩ ∧
    adminId ∈ (fallback_user_data adminId).authorized_ids.getD [] ∧
    adminId ∈ (fallback_user_data adminId).admin_ids.getD [] := by
  cases putOk <;>
    simp [load_user_data, initial_user_data, fallback_user_data]

end ClanBot
